import Mathlib

/-!
Verification of the account-packing core of the light-protocol stateless-js kit
(`src/lib/create-light-system-program-sdk.ts`).

The embedding models:
- `Address` as an opaque comparable identifier (`String`);
- `AccountRole` / `AccountMeta` as in `@solana/kit`;
- `getLightSystemAccountMetasV2`, parameterised over the external
  program-derived-address primitive `derive : Address → String → Address`
  (the source delegates `getProgramDerivedAddress` to `@solana/kit`);
- the `PackedAccounts` class as a record with explicit state passing;
- `buildAndSignTransaction`, with the rpc collaborator modelled as an optional
  response value and an explicit count of rpc consultations.
-/

namespace LightKit

/-- Addresses are opaque, comparable, immutable identifiers (base58 strings). -/
abbrev Address := String

/-- The four access roles of `@solana/kit`'s `AccountRole` enum. -/
inductive AccountRole where
  | READONLY
  | WRITABLE
  | READONLY_SIGNER
  | WRITABLE_SIGNER
  deriving DecidableEq, Repr

/-- An account descriptor: address plus access role. -/
structure AccountMeta where
  address : Address
  role : AccountRole
  deriving DecidableEq, Repr

def DEFAULT_REGISTERED_PROGRAM_PDA_ADDRESS : Address :=
  "35hkDgaAKwMCaxRz2ocSZ6NaUrtKkyNqU6c4RV3tYJRh"

def DEFAULT_NOOP_PROGRAM_ADDRESS : Address :=
  "noopb9bkMVfRPU8AsbpTUg8AQkHtKwMYZiFUjNRtMmV"

def DEFAULT_ACCOUNT_COMPRESSION_PROGRAM_ADDRESS : Address :=
  "compr6CUsB5m2jS4Y3831ztGSTnDpnKJTKS95d64XVq"

def DEFAULT_SYSTEM_PROGRAM_ADDRESS : Address :=
  "11111111111111111111111111111111"

def CPI_AUTHORITY_SEED : String := "cpi_authority"

/-- Config class `SystemAccountMetaConfig`: self program plus three optional addresses. -/
structure SystemAccountMetaConfig where
  cpiContext : Option Address := none
  selfProgram : Address
  solCompressionRecipient : Option Address := none
  solPoolPda : Option Address := none
  deriving DecidableEq, Repr

/-- Constructor `SystemAccountMetaConfig.new(selfProgram)`. -/
def SystemAccountMetaConfig.new (selfProgram : Address) : SystemAccountMetaConfig :=
  { selfProgram := selfProgram }

/-- Constructor `SystemAccountMetaConfig.newWithCpiContext(selfProgram, cpiContext)`. -/
def SystemAccountMetaConfig.newWithCpiContext (selfProgram cpiContext : Address) :
    SystemAccountMetaConfig :=
  { selfProgram := selfProgram, cpiContext := some cpiContext }

/-- The options object of `getLightSystemAccountMetasV2`; `none` means the
caller omitted the field and the source's parameter default applies. -/
structure LightSystemConfig where
  accountCompressionAuthority : Option Address := none
  accountCompressionProgram : Option Address := none
  lightSystemProgram : Address
  registeredProgramPda : Option Address := none
  deriving DecidableEq, Repr

/-- Source helper `deriveAccountCompressionAuthority(programAddress)`: PDA with seed
`CPI_AUTHORITY_SEED`, delegated to the external derivation primitive. -/
def deriveAccountCompressionAuthority (derive : Address → String → Address)
    (programAddress : Address) : Address :=
  derive programAddress CPI_AUTHORITY_SEED

/-- Resolver `getLightSystemAccountMetasV2(config, opts)`: six fixed read-only metas,
then the three optional writable metas in source order. -/
def getLightSystemAccountMetasV2 (derive : Address → String → Address)
    (config : SystemAccountMetaConfig) (opts : LightSystemConfig) : List AccountMeta :=
  let accountCompressionProgram :=
    opts.accountCompressionProgram.getD DEFAULT_ACCOUNT_COMPRESSION_PROGRAM_ADDRESS
  let registeredProgramPda :=
    opts.registeredProgramPda.getD DEFAULT_REGISTERED_PROGRAM_PDA_ADDRESS
  let cpiSigner := derive config.selfProgram CPI_AUTHORITY_SEED
  let resolvedAccountCompressionAuthority :=
    opts.accountCompressionAuthority.getD
      (deriveAccountCompressionAuthority derive opts.lightSystemProgram)
  let metas : List AccountMeta :=
    [⟨opts.lightSystemProgram, .READONLY⟩,
     ⟨cpiSigner, .READONLY⟩,
     ⟨registeredProgramPda, .READONLY⟩,
     ⟨resolvedAccountCompressionAuthority, .READONLY⟩,
     ⟨accountCompressionProgram, .READONLY⟩,
     ⟨DEFAULT_SYSTEM_PROGRAM_ADDRESS, .READONLY⟩]
  let metas := match config.solPoolPda with
    | some a => metas ++ [⟨a, .WRITABLE⟩]
    | none => metas
  let metas := match config.solCompressionRecipient with
    | some a => metas ++ [⟨a, .WRITABLE⟩]
    | none => metas
  match config.cpiContext with
    | some a => metas ++ [⟨a, .WRITABLE⟩]
    | none => metas

/-- A writable meta for a configured optional address, nothing otherwise. -/
def optWritable : Option Address → List AccountMeta
  | some a => [⟨a, .WRITABLE⟩]
  | none => []

/-- One entry of `PackedAccounts.map`: key address, assigned index, meta.
The JS `Map` preserves insertion order; we model it as an association list in
insertion order (`map.set` on a fresh key appends). -/
abbrev PackedEntry := Address × Nat × AccountMeta

/-- The mutable state of the `PackedAccounts` class. -/
structure PackedAccounts where
  map : List PackedEntry
  nextIndex : Nat
  preAccounts : List AccountMeta
  systemAccounts : List AccountMeta
  deriving DecidableEq, Repr

/-- Fresh instance `new PackedAccounts()`: empty map, counter 0, empty regions. -/
def PackedAccounts.empty : PackedAccounts :=
  { map := [], nextIndex := 0, preAccounts := [], systemAccounts := [] }

/-- Lookup `this.map.get(address)` on the association-list model. -/
def mapGet (m : List PackedEntry) (address : Address) : Option (Nat × AccountMeta) :=
  (m.find? (fun e => e.1 = address)).map (fun e => e.2)

/-- The role picked by `insertOrGetConfig` from the two flags. -/
def roleOfFlags (isSigner isWritable : Bool) : AccountRole :=
  if isSigner then
    if isWritable then .WRITABLE_SIGNER else .READONLY_SIGNER
  else
    if isWritable then .WRITABLE else .READONLY

/-- Method `insertOrGetConfig(address, isSigner, isWritable)`: returns the assigned
index and the post-state. -/
def insertOrGetConfig (s : PackedAccounts) (address : Address)
    (isSigner isWritable : Bool) : Nat × PackedAccounts :=
  match mapGet s.map address with
  | some existing => (existing.1, s)
  | none =>
    let index := s.nextIndex
    let role := roleOfFlags isSigner isWritable
    (index,
      { s with
        map := s.map ++ [(address, index, ⟨address, role⟩)],
        nextIndex := s.nextIndex + 1 })

/-- Method `insertOrGet(address)`. -/
def insertOrGet (s : PackedAccounts) (address : Address) : Nat × PackedAccounts :=
  insertOrGetConfig s address false true

/-- Method `insertOrGetReadOnly(address)`. -/
def insertOrGetReadOnly (s : PackedAccounts) (address : Address) : Nat × PackedAccounts :=
  insertOrGetConfig s address false false

/-- Method `addPreAccountsMeta(accountMeta)`. -/
def addPreAccountsMeta (s : PackedAccounts) (accountMeta : AccountMeta) : PackedAccounts :=
  { s with preAccounts := s.preAccounts ++ [accountMeta] }

/-- Method `addPreAccountsSigner(address)`. -/
def addPreAccountsSigner (s : PackedAccounts) (address : Address) : PackedAccounts :=
  { s with preAccounts := s.preAccounts ++ [⟨address, .READONLY_SIGNER⟩] }

/-- Method `addPreAccountsSignerMut(address)`. -/
def addPreAccountsSignerMut (s : PackedAccounts) (address : Address) : PackedAccounts :=
  { s with preAccounts := s.preAccounts ++ [⟨address, .WRITABLE_SIGNER⟩] }

/-- Method `addSystemAccountsV2(config, lightSystemConfig)`: pushes the resolver's
output onto `systemAccounts`. -/
def addSystemAccountsV2 (s : PackedAccounts) (derive : Address → String → Address)
    (config : SystemAccountMetaConfig) (opts : LightSystemConfig) : PackedAccounts :=
  { s with systemAccounts :=
      s.systemAccounts ++ getLightSystemAccountMetasV2 derive config opts }

/-- Factory `PackedAccounts.newWithSystemAccountsV2(config, lightSystemConfig)`. -/
def newWithSystemAccountsV2 (derive : Address → String → Address)
    (config : SystemAccountMetaConfig) (opts : LightSystemConfig) : PackedAccounts :=
  addSystemAccountsV2 PackedAccounts.empty derive config opts

/-- Result record of `toAccountMetas()`. -/
structure AccountMetasOut where
  packedStart : Nat
  remainingAccounts : List AccountMeta
  systemStart : Nat
  deriving DecidableEq, Repr

/-- Method `toAccountMetas()`: sort the map values ascending by assigned index
(`[...this.map.values()].sort((a, b) => a[0] - b[0])`, a stable sort on a
copy), drop the indices, and concatenate the three regions. -/
def toAccountMetas (s : PackedAccounts) : AccountMetasOut :=
  let packed :=
    ((s.map.map (fun e => e.2)).mergeSort (fun a b => decide (a.1 ≤ b.1))).map
      (fun e => e.2)
  let systemStart := s.preAccounts.length
  let packedStart := systemStart + s.systemAccounts.length
  { packedStart := packedStart,
    remainingAccounts := s.preAccounts ++ s.systemAccounts ++ packed,
    systemStart := systemStart }

/-- The method call view of `toAccountMetas()`: the source method performs no
assignment to any field and mutates no field in place (the sort runs on the
spread copy of the map values), so the post-state is the pre-state. -/
def toAccountMetasCall (s : PackedAccounts) : AccountMetasOut × PackedAccounts :=
  (toAccountMetas s, s)

/-- States of `PackedAccounts` reachable through its public methods from a
fresh instance. -/
inductive Reachable : PackedAccounts → Prop where
  | empty : Reachable PackedAccounts.empty
  | preMeta (s : PackedAccounts) (m : AccountMeta) :
      Reachable s → Reachable (addPreAccountsMeta s m)
  | preSigner (s : PackedAccounts) (a : Address) :
      Reachable s → Reachable (addPreAccountsSigner s a)
  | preSignerMut (s : PackedAccounts) (a : Address) :
      Reachable s → Reachable (addPreAccountsSignerMut s a)
  | system (s : PackedAccounts) (derive : Address → String → Address)
      (config : SystemAccountMetaConfig) (opts : LightSystemConfig) :
      Reachable s → Reachable (addSystemAccountsV2 s derive config opts)
  | insert (s : PackedAccounts) (a : Address) (sg wr : Bool) :
      Reachable s → Reachable (insertOrGetConfig s a sg wr).2

/-- The index-map invariant: the assigned indices are, in insertion order,
exactly `0, ..., mapSize - 1`, and the counter sits at `mapSize`. -/
def PackedInv (s : PackedAccounts) : Prop :=
  s.map.map (fun e => e.2.1) = List.range s.map.length ∧
  s.nextIndex = s.map.length

/-- Running a sequence of `insertOrGetConfig` calls, collecting the returned
indices. -/
def insertSeq (s : PackedAccounts) : List (Address × Bool × Bool) → List Nat × PackedAccounts
  | [] => ([], s)
  | (a, sg, wr) :: rest =>
    let r := insertOrGetConfig s a sg wr
    let rec2 := insertSeq r.2 rest
    (r.1 :: rec2.1, rec2.2)

/-- A blockhash lifetime constraint. `lastValidBlockHeight` is a bigint in
the source; heights are non-negative. -/
structure BlockhashLifetimeConstraint where
  blockhash : String
  lastValidBlockHeight : Nat
  deriving DecidableEq, Repr

/-- The shape of `rpc.getLatestBlockhash().send()`: either the constraint
itself or an envelope with a `value` field. -/
inductive BlockhashResponse where
  | plain (c : BlockhashLifetimeConstraint)
  | withValue (c : BlockhashLifetimeConstraint)
  deriving DecidableEq, Repr

/-- Source helper `normalizeBlockhashLifetimeConstraint(response)`. -/
def normalizeBlockhashLifetimeConstraint : BlockhashResponse → BlockhashLifetimeConstraint
  | .withValue c => c
  | .plain c => c

/-- Transaction message version: `0 | 'legacy'`. -/
inductive TransactionVersion where
  | v0
  | legacy
  deriving DecidableEq, Repr

/-- One instruction input of `buildAndSignTransaction`. -/
structure InstructionInput where
  accounts : List AccountMeta := []
  data : List Nat := []
  programAddress : Address
  deriving DecidableEq, Repr

/-- The input of `buildAndSignTransaction`; the rpc collaborator is modelled
by the response it would return when consulted, `none` when absent. -/
structure BuildAndSignTransactionInput where
  feePayer : Address
  instructions : List InstructionInput
  latestBlockhash : Option BlockhashLifetimeConstraint := none
  rpc : Option BlockhashResponse := none
  version : Option TransactionVersion := none
  deriving DecidableEq, Repr

/-- The signed transaction: the data the message-building chain hands the
external signer — fee payer, instructions, lifetime blockhash, version. -/
structure SignedTransaction where
  feePayer : Address
  instructions : List InstructionInput
  lifetime : BlockhashLifetimeConstraint
  version : TransactionVersion
  deriving DecidableEq, Repr

/-- Function `buildAndSignTransaction`: resolves the blockhash
(`latestBlockhash ?? (rpc ? normalize(await rpc...) : undefined)`), throws
when neither source is available, otherwise builds and signs. The second
component counts consultations of the rpc collaborator. -/
def buildAndSignTransaction (input : BuildAndSignTransactionInput) :
    Except String SignedTransaction × Nat :=
  match input.latestBlockhash with
  | some lb =>
    (.ok { feePayer := input.feePayer, instructions := input.instructions,
           lifetime := lb, version := input.version.getD .v0 }, 0)
  | none =>
    match input.rpc with
    | some response =>
      (.ok { feePayer := input.feePayer, instructions := input.instructions,
             lifetime := normalizeBlockhashLifetimeConstraint response,
             version := input.version.getD .v0 }, 1)
    | none =>
      (.error "latestBlockhash is required when rpc is not provided.", 0)

end LightKit

namespace LightKit

theorem getLightSystemAccountMetasV2_eq (derive : Address → String → Address)
    (config : SystemAccountMetaConfig) (opts : LightSystemConfig) :
    getLightSystemAccountMetasV2 derive config opts =
      [⟨opts.lightSystemProgram, .READONLY⟩,
       ⟨derive config.selfProgram CPI_AUTHORITY_SEED, .READONLY⟩,
       ⟨opts.registeredProgramPda.getD DEFAULT_REGISTERED_PROGRAM_PDA_ADDRESS, .READONLY⟩,
       ⟨opts.accountCompressionAuthority.getD
          (derive opts.lightSystemProgram CPI_AUTHORITY_SEED), .READONLY⟩,
       ⟨opts.accountCompressionProgram.getD
          DEFAULT_ACCOUNT_COMPRESSION_PROGRAM_ADDRESS, .READONLY⟩,
       ⟨DEFAULT_SYSTEM_PROGRAM_ADDRESS, .READONLY⟩]
      ++ optWritable config.solPoolPda
      ++ optWritable config.solCompressionRecipient
      ++ optWritable config.cpiContext := by
  unfold getLightSystemAccountMetasV2 optWritable deriveAccountCompressionAuthority
  cases config.solPoolPda <;> cases config.solCompressionRecipient <;>
    cases config.cpiContext <;> simp

/-- C1: with no optional fields configured, `getLightSystemAccountMetasV2`
returns exactly the six fixed read-only metas in source order
`[B, derive(selfProgram, cpi seed), registeredProgramPda (default if absent),
compression authority (override else derived from B), compression program
(default if absent), system program constant]`; and for every config the
optional accounts `solPoolPda`, `solCompressionRecipient`, `cpiContext` are
appended after these six, in that order, each writable, each present iff
configured. -/
theorem C1_system_account_metas_layout (derive : Address → String → Address)
    (config : SystemAccountMetaConfig) (opts : LightSystemConfig) :
    (getLightSystemAccountMetasV2 derive config opts =
      [⟨opts.lightSystemProgram, .READONLY⟩,
       ⟨derive config.selfProgram CPI_AUTHORITY_SEED, .READONLY⟩,
       ⟨opts.registeredProgramPda.getD DEFAULT_REGISTERED_PROGRAM_PDA_ADDRESS, .READONLY⟩,
       ⟨opts.accountCompressionAuthority.getD
          (derive opts.lightSystemProgram CPI_AUTHORITY_SEED), .READONLY⟩,
       ⟨opts.accountCompressionProgram.getD
          DEFAULT_ACCOUNT_COMPRESSION_PROGRAM_ADDRESS, .READONLY⟩,
       ⟨DEFAULT_SYSTEM_PROGRAM_ADDRESS, .READONLY⟩]
      ++ optWritable config.solPoolPda
      ++ optWritable config.solCompressionRecipient
      ++ optWritable config.cpiContext) ∧
    (config.solPoolPda = none → config.solCompressionRecipient = none →
      config.cpiContext = none →
      (getLightSystemAccountMetasV2 derive config opts).length = 6 ∧
      ∀ m ∈ getLightSystemAccountMetasV2 derive config opts,
        m.role = AccountRole.READONLY) := by
  refine ⟨getLightSystemAccountMetasV2_eq derive config opts, ?_⟩
  intro h1 h2 h3
  rw [getLightSystemAccountMetasV2_eq, h1, h2, h3]
  refine ⟨rfl, ?_⟩
  intro m hm
  simp only [optWritable, List.append_nil, List.mem_cons, List.not_mem_nil, or_false] at hm
  rcases hm with h | h | h | h | h | h <;> subst h <;> rfl

theorem mapGet_append_single_of_ne (m : List PackedEntry) (a b : Address)
    (i : Nat) (meta : AccountMeta) (hne : b ≠ a) (h : mapGet m b = none) :
    mapGet (m ++ [(a, i, meta)]) b = none := by
  simp only [mapGet, Option.map_eq_none', List.find?_eq_none] at h ⊢
  intro x hx
  rcases List.mem_append.mp hx with hx | hx
  · exact h x hx
  · simp only [List.mem_singleton] at hx
    subst hx
    simp [Ne.symm hne]

theorem insertOrGetConfig_fresh (s : PackedAccounts) (a : Address)
    (sg wr : Bool) (h : mapGet s.map a = none) :
    insertOrGetConfig s a sg wr =
      (s.nextIndex,
        { s with
          map := s.map ++ [(a, s.nextIndex, ⟨a, roleOfFlags sg wr⟩)],
          nextIndex := s.nextIndex + 1 }) := by
  simp [insertOrGetConfig, h]

theorem insertSeq_fresh_indices (addrs : List (Address × Bool × Bool)) :
    ∀ s : PackedAccounts, (addrs.map (fun x => x.1)).Nodup →
    (∀ a ∈ addrs.map (fun x => x.1), mapGet s.map a = none) →
    (insertSeq s addrs).1 = List.range' s.nextIndex addrs.length ∧
    (insertSeq s addrs).2.nextIndex = s.nextIndex + addrs.length := by
  induction addrs with
  | nil => intro s _ _; exact ⟨rfl, rfl⟩
  | cons hd tl ih =>
    intro s hnodup hfresh
    obtain ⟨a, sg, wr⟩ := hd
    have ha : mapGet s.map a = none := hfresh a (by simp)
    have hstep := insertOrGetConfig_fresh s a sg wr ha
    simp only [List.map_cons, List.nodup_cons] at hnodup
    have hfresh2 : ∀ b ∈ tl.map (fun x => x.1),
        mapGet ({ s with
          map := s.map ++ [(a, s.nextIndex, ⟨a, roleOfFlags sg wr⟩)],
          nextIndex := s.nextIndex + 1 } : PackedAccounts).map b = none := by
      intro b hb
      have hbne : b ≠ a := fun hba => hnodup.1 (hba ▸ hb)
      exact mapGet_append_single_of_ne s.map a b _ _ hbne
        (hfresh b (by simp [hb]))
    have ihr := ih _ hnodup.2 hfresh2
    simp only [insertSeq, hstep] at ihr ⊢
    constructor
    · rw [ihr.1, List.length_cons, List.range'_succ]
    · rw [ihr.2, List.length_cons]
      omega

/-- C2: inserting N pairwise-distinct addresses into a fresh `PackedAccounts`
(with any signer/writable flags, covering `insertOrGet`,
`insertOrGetReadOnly` and `insertOrGetConfig`) returns the indices
`0, 1, ..., N-1` in insertion order; the result is a function of the call
sequence, hence deterministic. -/
theorem C2_fresh_insertions_range (addrs : List (Address × Bool × Bool))
    (hnodup : (addrs.map (fun x => x.1)).Nodup) :
    (insertSeq PackedAccounts.empty addrs).1 = List.range addrs.length := by
  have h := insertSeq_fresh_indices addrs PackedAccounts.empty hnodup
    (by intro a _; rfl)
  rw [h.1, List.range_eq_range']
  rfl

/-- Witness for C2 at three concrete distinct addresses with mixed flags. -/
theorem C2_fresh_insertions_range_witness :
    (insertSeq PackedAccounts.empty
      [("P", false, true), ("Q", false, false), ("R", true, true)]).1 =
      List.range 3 :=
  C2_fresh_insertions_range
    [("P", false, true), ("Q", false, false), ("R", true, true)] (by decide)

theorem toAccountMetas_remaining (s : PackedAccounts) :
    (toAccountMetas s).remainingAccounts =
      s.preAccounts ++ s.systemAccounts ++
        (((s.map.map (fun e => e.2)).mergeSort
            (fun a b => decide (a.1 ≤ b.1))).map (fun e => e.2)) := rfl

/-- C3: `toAccountMetas` returns `preAccounts ++ systemAccounts ++ (map
entries sorted ascending by assigned index)`; in particular, for
`preAccounts = [X]`, `systemAccounts = [Y, Z]` and two read-only packed
insertions of fresh addresses `P` then `Q`, the result is
`[X, Y, Z, P, Q]` with `systemStart = 1` and `packedStart = 3`. -/
theorem C3_concatenation (s : PackedAccounts) (X Y Z : AccountMeta)
    (P Q : Address) (hPQ : P ≠ Q) :
    (∃ entries : List (Nat × AccountMeta),
      entries.Perm (s.map.map (fun e => e.2)) ∧
      entries.Pairwise (fun a b => a.1 ≤ b.1) ∧
      (toAccountMetas s).remainingAccounts =
        s.preAccounts ++ s.systemAccounts ++ entries.map (fun e => e.2)) ∧
    (toAccountMetas (insertOrGetReadOnly (insertOrGetReadOnly
        { map := [], nextIndex := 0, preAccounts := [X],
          systemAccounts := [Y, Z] } P).2 Q).2 =
      { packedStart := 3,
        remainingAccounts := [X, Y, Z, ⟨P, .READONLY⟩, ⟨Q, .READONLY⟩],
        systemStart := 1 }) := by
  constructor
  · refine ⟨(s.map.map (fun e => e.2)).mergeSort (fun a b => decide (a.1 ≤ b.1)),
      List.mergeSort_perm _ _, ?_, toAccountMetas_remaining s⟩
    have h := @List.sorted_mergeSort (Nat × AccountMeta)
      (fun a b => decide (a.1 ≤ b.1))
      (fun a b c hab hbc => by
        simp only [decide_eq_true_eq] at hab hbc ⊢; omega)
      (fun a b => by
        simp only [Bool.or_eq_true, decide_eq_true_eq]; omega)
      (s.map.map (fun e => e.2))
    exact h.imp (fun hab => by simpa using hab)
  · have h1 : insertOrGetReadOnly
        ({ map := [], nextIndex := 0, preAccounts := [X],
           systemAccounts := [Y, Z] } : PackedAccounts) P =
        (0, { map := [(P, 0, ⟨P, .READONLY⟩)], nextIndex := 1,
              preAccounts := [X], systemAccounts := [Y, Z] }) := by
      simp [insertOrGetReadOnly, insertOrGetConfig, mapGet, roleOfFlags]
    have h2 : insertOrGetReadOnly
        ({ map := [(P, 0, ⟨P, .READONLY⟩)], nextIndex := 1,
           preAccounts := [X], systemAccounts := [Y, Z] } : PackedAccounts) Q =
        (1, { map := [(P, 0, ⟨P, .READONLY⟩), (Q, 1, ⟨Q, .READONLY⟩)],
              nextIndex := 2, preAccounts := [X], systemAccounts := [Y, Z] }) := by
      simp [insertOrGetReadOnly, insertOrGetConfig, mapGet, roleOfFlags,
        List.find?, hPQ]
    rw [h1, h2]
    have hsorted : List.mergeSort
        [((0 : Nat), (⟨P, .READONLY⟩ : AccountMeta)), (1, ⟨Q, .READONLY⟩)]
        (fun a b => decide (a.1 ≤ b.1)) =
        [(0, ⟨P, .READONLY⟩), (1, ⟨Q, .READONLY⟩)] := by
      apply List.mergeSort_of_sorted
      simp [List.pairwise_cons]
    simp only [toAccountMetas, List.map_cons, List.map_nil, hsorted]
    rfl

/-- Witness for C3 at concrete metas and distinct addresses. -/
theorem C3_concatenation_witness :
    toAccountMetas (insertOrGetReadOnly (insertOrGetReadOnly
      { map := [], nextIndex := 0, preAccounts := [⟨"X", .READONLY⟩],
        systemAccounts := [⟨"Y", .READONLY⟩, ⟨"Z", .READONLY⟩] } "P").2 "Q").2 =
      { packedStart := 3,
        remainingAccounts :=
          [⟨"X", .READONLY⟩, ⟨"Y", .READONLY⟩, ⟨"Z", .READONLY⟩,
           ⟨"P", .READONLY⟩, ⟨"Q", .READONLY⟩],
        systemStart := 1 } :=
  (C3_concatenation PackedAccounts.empty ⟨"X", .READONLY⟩ ⟨"Y", .READONLY⟩
    ⟨"Z", .READONLY⟩ "P" "Q" (by decide)).2

/-- C4: the offsets of `toAccountMetas` satisfy
`systemStart = len preAccounts` and
`packedStart - systemStart = len systemAccounts`; with an empty index map,
`packedStart` equals the length of `remainingAccounts`. -/
theorem C4_offset_consistency (s : PackedAccounts) :
    (toAccountMetas s).systemStart = s.preAccounts.length ∧
    (toAccountMetas s).packedStart - (toAccountMetas s).systemStart =
      s.systemAccounts.length ∧
    (s.map = [] →
      (toAccountMetas s).packedStart =
        (toAccountMetas s).remainingAccounts.length) := by
  refine ⟨rfl, ?_, ?_⟩
  · simp [toAccountMetas]
  · intro h
    simp [toAccountMetas, h]

theorem mapGet_append_single_self (m : List PackedEntry) (a : Address)
    (i : Nat) (meta : AccountMeta) (h : mapGet m a = none) :
    mapGet (m ++ [(a, i, meta)]) a = some (i, meta) := by
  simp only [mapGet, Option.map_eq_none'] at h
  simp [mapGet, List.find?_append, h]

/-- C6: inserting the same address twice (with any flags on either call)
returns the same index both times, and the map does not grow on the second
call. -/
theorem C6_idempotent_insert (s : PackedAccounts) (a : Address)
    (sg wr sg2 wr2 : Bool) :
    (insertOrGetConfig (insertOrGetConfig s a sg wr).2 a sg2 wr2).1 =
      (insertOrGetConfig s a sg wr).1 ∧
    (insertOrGetConfig (insertOrGetConfig s a sg wr).2 a sg2 wr2).2.map.length =
      (insertOrGetConfig s a sg wr).2.map.length := by
  rcases h : mapGet s.map a with _ | e
  · rw [insertOrGetConfig_fresh s a sg wr h]
    have h2 : mapGet (s.map ++ [(a, s.nextIndex, ⟨a, roleOfFlags sg wr⟩)]) a =
        some (s.nextIndex, ⟨a, roleOfFlags sg wr⟩) :=
      mapGet_append_single_self s.map a _ _ h
    simp [insertOrGetConfig, h2]
  · simp [insertOrGetConfig, h]

/-- C7: once an address is present in the index map, any later
`insertOrGetConfig` call for it — with any flags — returns the recorded
index and leaves the whole state, hence the recorded entry, unchanged. -/
theorem C7_first_insertion_wins (s : PackedAccounts) (a : Address)
    (e : Nat × AccountMeta) (sg wr : Bool) (h : mapGet s.map a = some e) :
    insertOrGetConfig s a sg wr = (e.1, s) := by
  simp [insertOrGetConfig, h]

/-- Witness for C7: a second, flag-flipped insertion of a present address
returns the original index and leaves the state unchanged. -/
theorem C7_first_insertion_wins_witness :
    mapGet (insertOrGetReadOnly PackedAccounts.empty "A").2.map "A" =
      some (0, ⟨"A", .READONLY⟩) ∧
    insertOrGetConfig (insertOrGetReadOnly PackedAccounts.empty "A").2 "A"
        true true =
      (0, (insertOrGetReadOnly PackedAccounts.empty "A").2) := by
  refine ⟨by decide, ?_⟩
  exact C7_first_insertion_wins _ "A" (0, ⟨"A", .READONLY⟩) true true (by decide)

/-- C8: `toAccountMetas` leaves every field of the state unchanged, and a
second call on the post-state returns an identical result. -/
theorem C8_toAccountMetas_pure (s : PackedAccounts) :
    (toAccountMetasCall s).2.map = s.map ∧
    (toAccountMetasCall s).2.nextIndex = s.nextIndex ∧
    (toAccountMetasCall s).2.preAccounts = s.preAccounts ∧
    (toAccountMetasCall s).2.systemAccounts = s.systemAccounts ∧
    (toAccountMetasCall (toAccountMetasCall s).2).1 = (toAccountMetasCall s).1 :=
  ⟨rfl, rfl, rfl, rfl, rfl⟩

/-- C9: `insertOrGetReadOnly` is `insertOrGetConfig` with
`isSigner = false, isWritable = false`, and `insertOrGet` is
`insertOrGetConfig` with `isSigner = false, isWritable = true`. -/
theorem C9_wrapper_equivalence (s : PackedAccounts) (a : Address) :
    insertOrGetReadOnly s a = insertOrGetConfig s a false false ∧
    insertOrGet s a = insertOrGetConfig s a false true :=
  ⟨rfl, rfl⟩

theorem reachable_packedInv (s : PackedAccounts) (h : Reachable s) :
    PackedInv s := by
  induction h with
  | empty => exact ⟨rfl, rfl⟩
  | preMeta s m _ ih => exact ih
  | preSigner s a _ ih => exact ih
  | preSignerMut s a _ ih => exact ih
  | system s derive config opts _ ih => exact ih
  | insert s a sg wr _ ih =>
    rcases hm : mapGet s.map a with _ | e
    · rw [insertOrGetConfig_fresh s a sg wr hm]
      refine ⟨?_, ?_⟩
      · simp only [List.map_append, List.length_append, List.map_cons,
          List.map_nil, List.length_cons, List.length_nil, ih.1, ih.2]
        rw [Nat.zero_add, List.range_succ]
      · simp [ih.2]
    · simp only [insertOrGetConfig, hm]
      exact ih

theorem packedInv_lookup (s : PackedAccounts) (hinv : PackedInv s)
    (a : Address) (k : Nat) (meta : AccountMeta)
    (hm : mapGet s.map a = some (k, meta)) :
    s.map[k]? = some (a, k, meta) := by
  unfold mapGet at hm
  rcases hopt : s.map.find? (fun e => decide (e.1 = a)) with _ | e
  · rw [hopt] at hm; cases hm
  · rw [hopt] at hm
    have he2 : e.2 = (k, meta) := by
      simpa using hm
    have hp : e.1 = a := by
      have := List.find?_some hopt
      simpa using this
    obtain ⟨-, as, bs, heq, -⟩ := List.find?_eq_some.mp hopt
    have hkpos : k = as.length := by
      have hmap := hinv.1
      rw [heq] at hmap
      have hlhs : ((as ++ e :: bs).map (fun e => e.2.1))[as.length]? =
          some e.2.1 := by
        rw [List.map_append]
        rw [List.getElem?_append_right (by simp)]
        simp
      rw [hmap] at hlhs
      have hlt : as.length < (as ++ e :: bs).length := by
        simp
      rw [List.getElem?_range hlt] at hlhs
      have h2 := Option.some.inj hlhs
      rw [he2] at h2
      exact h2.symm
    have hentry : e = (a, k, meta) := by
      obtain ⟨e1, e2⟩ := e
      simp only at hp he2
      rw [hp, he2]
    rw [heq, hkpos, List.getElem?_append_right (Nat.le_refl _),
      Nat.sub_self]
    simp [hentry, hkpos]

/-- C5: in every reachable `PackedAccounts` state, an address recorded in the
index map with assigned index `k` has its meta at absolute position
`packedStart + k` of the `remainingAccounts` returned by `toAccountMetas`. -/
theorem C5_packed_absolute_position (s : PackedAccounts) (h : Reachable s)
    (a : Address) (k : Nat) (meta : AccountMeta)
    (hm : mapGet s.map a = some (k, meta)) :
    (toAccountMetas s).remainingAccounts[(toAccountMetas s).packedStart + k]? =
      some meta := by
  have hinv := reachable_packedInv s h
  have hidx : (s.map.map (fun e => e.2)).map (fun e => e.1) =
      List.range s.map.length := by
    rw [List.map_map]
    exact hinv.1
  have hpair : (s.map.map (fun e => e.2)).Pairwise
      (fun x y => decide (x.1 ≤ y.1) = true) := by
    have hle := List.pairwise_le_range s.map.length
    rw [← hidx] at hle
    exact (List.pairwise_map.mp hle).imp (fun hxy => by simpa using hxy)
  have hsorted : (s.map.map (fun e => e.2)).mergeSort
        (fun x y => decide (x.1 ≤ y.1)) =
      s.map.map (fun e => e.2) :=
    List.mergeSort_of_sorted hpair
  have hk := packedInv_lookup s hinv a k meta hm
  have hpacked : (((s.map.map (fun e => e.2)).map (fun e => e.2)))[k]? =
      some meta := by
    simp [List.getElem?_map, hk]
  have hrem : (toAccountMetas s).remainingAccounts =
      s.preAccounts ++ s.systemAccounts ++
        (s.map.map (fun e => e.2)).map (fun e => e.2) := by
    rw [toAccountMetas_remaining, hsorted]
  have hps : (toAccountMetas s).packedStart =
      s.preAccounts.length + s.systemAccounts.length := rfl
  rw [hrem, hps, List.getElem?_append_right (by simp)]
  have harith : s.preAccounts.length + s.systemAccounts.length + k -
      (s.preAccounts ++ s.systemAccounts).length = k := by
    simp
  rw [harith]
  exact hpacked

/-- Witness for C5: one writable insertion into a fresh instance sits at
position `packedStart + 0`. -/
theorem C5_packed_absolute_position_witness :
    (toAccountMetas
        (insertOrGetConfig PackedAccounts.empty "A" false true).2).remainingAccounts[
      (toAccountMetas
        (insertOrGetConfig PackedAccounts.empty "A" false true).2).packedStart + 0]? =
      some ⟨"A", .WRITABLE⟩ :=
  C5_packed_absolute_position _
    (Reachable.insert PackedAccounts.empty "A" false true Reachable.empty)
    "A" 0 ⟨"A", .WRITABLE⟩ (by decide)

/-- Witness for C4 at a concrete state with an empty index map. -/
theorem C4_offset_consistency_witness :
    (toAccountMetas
      { map := [], nextIndex := 0, preAccounts := [⟨"X", .READONLY⟩],
        systemAccounts := [⟨"Y", .WRITABLE⟩] }).systemStart = 1 ∧
    (toAccountMetas
      { map := [], nextIndex := 0, preAccounts := [⟨"X", .READONLY⟩],
        systemAccounts := [⟨"Y", .WRITABLE⟩] }).packedStart =
      (toAccountMetas
        { map := [], nextIndex := 0, preAccounts := [⟨"X", .READONLY⟩],
          systemAccounts := [⟨"Y", .WRITABLE⟩] }).remainingAccounts.length := by
  have h := C4_offset_consistency
    { map := [], nextIndex := 0, preAccounts := [⟨"X", .READONLY⟩],
      systemAccounts := [⟨"Y", .WRITABLE⟩] }
  exact ⟨h.1, h.2.2 rfl⟩

/-- Witness for C1 at a concrete config and options. -/
theorem C1_system_account_metas_layout_witness :
    let derive : Address → String → Address := fun p s => String.append (String.append "pda/" s) p
    let config := SystemAccountMetaConfig.new "A"
    let opts : LightSystemConfig := { lightSystemProgram := "B" }
    (getLightSystemAccountMetasV2 derive config opts =
      [⟨"B", .READONLY⟩,
       ⟨derive "A" CPI_AUTHORITY_SEED, .READONLY⟩,
       ⟨DEFAULT_REGISTERED_PROGRAM_PDA_ADDRESS, .READONLY⟩,
       ⟨derive "B" CPI_AUTHORITY_SEED, .READONLY⟩,
       ⟨DEFAULT_ACCOUNT_COMPRESSION_PROGRAM_ADDRESS, .READONLY⟩,
       ⟨DEFAULT_SYSTEM_PROGRAM_ADDRESS, .READONLY⟩] ∧
     (getLightSystemAccountMetasV2 derive config opts).length = 6) := by
  intro derive config opts
  have h := C1_system_account_metas_layout derive config opts
  have hopt : config.solPoolPda = none ∧ config.solCompressionRecipient = none ∧
      config.cpiContext = none := by exact ⟨rfl, rfl, rfl⟩
  refine ⟨?_, (h.2 hopt.1 hopt.2.1 hopt.2.2).1⟩
  rw [h.1]
  rfl

end LightKit

namespace LightKit

/-- C10: with neither `latestBlockhash` nor `rpc`, `buildAndSignTransaction`
fails with the source's error message, consulting the rpc zero times and
producing no transaction; whenever `latestBlockhash` is provided the rpc is
never consulted and the provided blockhash is the lifetime of the signed
transaction. -/
theorem C10_blockhash_resolution (input : BuildAndSignTransactionInput) :
    (input.latestBlockhash = none → input.rpc = none →
      buildAndSignTransaction input =
        (.error "latestBlockhash is required when rpc is not provided.", 0)) ∧
    (∀ lb, input.latestBlockhash = some lb →
      (buildAndSignTransaction input).2 = 0 ∧
      (buildAndSignTransaction input).1 =
        .ok { feePayer := input.feePayer, instructions := input.instructions,
              lifetime := lb, version := input.version.getD .v0 }) := by
  constructor
  · intro h1 h2
    simp [buildAndSignTransaction, h1, h2]
  · intro lb hlb
    simp [buildAndSignTransaction, hlb]

/-- Witness for C10: the error case and the provided-blockhash case at
concrete inputs. -/
theorem C10_blockhash_resolution_witness :
    buildAndSignTransaction { feePayer := "F", instructions := [] } =
      (.error "latestBlockhash is required when rpc is not provided.", 0) ∧
    buildAndSignTransaction
        { feePayer := "F", instructions := [],
          latestBlockhash := some ⟨"bh", 5⟩, rpc := some (.plain ⟨"other", 9⟩) } =
      (.ok { feePayer := "F", instructions := [], lifetime := ⟨"bh", 5⟩,
             version := .v0 }, 0) := by
  constructor
  · exact (C10_blockhash_resolution
      { feePayer := "F", instructions := [] }).1 rfl rfl
  · have h := (C10_blockhash_resolution
      { feePayer := "F", instructions := [],
        latestBlockhash := some ⟨"bh", 5⟩,
        rpc := some (.plain ⟨"other", 9⟩) }).2 ⟨"bh", 5⟩ rfl
    have hpair : buildAndSignTransaction
        { feePayer := "F", instructions := [],
          latestBlockhash := some ⟨"bh", 5⟩,
          rpc := some (.plain ⟨"other", 9⟩) } =
        ((buildAndSignTransaction
          { feePayer := "F", instructions := [],
            latestBlockhash := some ⟨"bh", 5⟩,
            rpc := some (.plain ⟨"other", 9⟩) }).1,
         (buildAndSignTransaction
          { feePayer := "F", instructions := [],
            latestBlockhash := some ⟨"bh", 5⟩,
            rpc := some (.plain ⟨"other", 9⟩) }).2) := rfl
    rw [hpair, h.1, h.2]
    rfl

end LightKit
